import Mathlib

/-!
Verification of the window lifecycle and ordering manager of YouOS
(`src/os/desktop.py`, classes `ProgramWindow` and `WindowManager`).

The embedding models exactly the state that the lifecycle operations read
and write:

* `ProgramWindow` (class at desktop.py lines 62-238): the per-window flags
  `is_minimized`, `is_maximized`, the saved rectangle `normal_geometry`,
  the current Qt geometry (position set by `move`, size by `resize` /
  `setGeometry`), and the Qt shown/hidden flag toggled by `show()` /
  `hide()` (read back through `isVisible()`).  Pure chrome (title bar
  widgets, drag handling, sounds, button captions) has no effect on this
  state and is not modelled.
* `WindowManager` (lines 261-344): the insertion-ordered dict
  `self.windows` mapping window id to `{'window', 'program_name', 'icon'}`
  (modelled as an association list, since a Python dict iterates in
  insertion order and ids are never re-inserted), the counter
  `self.window_counter`, and the list `self.z_order`.

Python builds the window id as the string `f"{program_name}_{counter}"`;
since the decimal counter contains no underscore, the string determines
the pair (split at the last underscore), so the id is modelled as the pair
`(program_name, counter)` directly.

Qt signal connections made in `create_window` are synchronous direct
calls on the single UI thread, so they are inlined: `closed` runs
`WindowManager.close_window`, `minimized` runs `on_window_minimized`
(a no-op), and `focused` runs `WindowManager.bring_to_front`; in
particular `ProgramWindow.restore` ends by emitting `focused`, so its
manager-level effect is the local flag update followed by
`bring_to_front`.  Qt's minimum-size clamping (`setMinimumSize(400,300)`)
is not modelled: every geometry the claims touch is already above the
minimum, so the clamp is the identity there.
-/

/-- Window identifier: Python `f"{program_name}_{self.window_counter}"`
(desktop.py line 273), modelled as the pair the string encodes. -/
structure WindowId where
  pname : String
  ctr : Nat
deriving DecidableEq, Repr

/-- A geometry rectangle (Qt `QRect`): position and size. -/
structure Rect where
  x : Int
  y : Int
  w : Int
  h : Int
deriving DecidableEq, Repr

/-- The mutable state of one `ProgramWindow` (desktop.py lines 69-86):
both booleans of the source's boolean-pair encoding, the saved
pre-maximize rectangle, the current geometry, and the Qt shown flag. -/
structure PW where
  is_minimized : Bool
  is_maximized : Bool
  normal_geometry : Option Rect
  geometry : Rect
  visible : Bool
deriving DecidableEq, Repr

/-- One value of the `self.windows` dict (desktop.py lines 284-288):
the window object plus the `program_name` and `icon` strings. -/
structure WinEntry where
  win : PW
  program_name : String
  icon : String
deriving DecidableEq, Repr

/-- The `WindowManager` state (desktop.py lines 264-268): the window
registry (insertion-ordered dict as association list), the id counter,
and the z-order list (tail = topmost). -/
structure WMState where
  windows : List (WindowId × WinEntry)
  window_counter : Nat
  z_order : List WindowId
deriving DecidableEq, Repr

/-- The empty manager produced by `WindowManager.__init__`. -/
def wmInit : WMState :=
  { windows := [], window_counter := 0, z_order := [] }

/-- Dict lookup `self.windows[window_id]` (first — and only — entry whose
key matches). -/
def lookupWin (s : WMState) (id : WindowId) : Option WinEntry :=
  (s.windows.find? (fun e => e.1 == id)).map Prod.snd

/-- The registry's key list (`self.windows` viewed as its keys, in
insertion order). -/
def regIds (s : WMState) : List WindowId :=
  s.windows.map Prod.fst

/-- In-place mutation of the window object stored under `id` (Python
mutates the `ProgramWindow`; the dict itself and its order are
unchanged). -/
def updEntry (id : WindowId) (f : PW → PW) (e : WindowId × WinEntry) :
    WindowId × WinEntry :=
  if e.1 = id then (e.1, { e.2 with win := f e.2.win }) else e

def updateWin (s : WMState) (id : WindowId) (f : PW → PW) : WMState :=
  { s with windows := s.windows.map (updEntry id f) }

/-- Python `ProgramWindow.minimize` (lines 202-206): set `is_minimized`, call
`self.hide()`; the `minimized` signal reaches `on_window_minimized`,
which is `pass`. -/
def pwMinimize (w : PW) : PW :=
  { w with is_minimized := true, visible := false }

/-- The local part of `ProgramWindow.restore` (lines 208-213): clear
`is_minimized`, call `self.show()`.  The final `focused` emit is applied
by `restoreW` below. -/
def pwRestoreLocal (w : PW) : PW :=
  { w with is_minimized := false, visible := true }

/-- Python `ProgramWindow.toggle_maximize` (lines 215-229). `dw`, `dh` are the
desktop (parent) rectangle's width and height.  When maximized it
restores `geometry` from `normal_geometry` when that is set (and leaves
`normal_geometry` itself untouched); otherwise it saves the current
geometry and takes the maximized rectangle
`(10, 10, dw - 20, dh - 90)`. -/
def pwToggleMaximize (dw dh : Int) (w : PW) : PW :=
  if w.is_maximized then
    { w with
      geometry := match w.normal_geometry with
        | some g => g
        | none => w.geometry,
      is_maximized := false }
  else
    { w with
      normal_geometry := some w.geometry,
      geometry := { x := 10, y := 10, w := dw - 20, h := dh - 90 },
      is_maximized := true }

/-- The size chosen in `ProgramWindow.__init__` (lines 82-86): when the
content widget reports a valid size hint `(w, h)` the window is resized
to `(max 800 (w+50), max 600 (h+90))`, otherwise to `(900, 650)`. -/
def sizeFor (hint : Option (Int × Int)) : Int × Int :=
  match hint with
  | some wh => (max 800 (wh.1 + 50), max 600 (wh.2 + 90))
  | none => (900, 650)

/-- Python `WindowManager.create_window` (lines 270-294): bump the counter,
build the id, construct the window (Normal state, shown), cascade-move it
to `(100 + offset, 80 + offset)` with
`offset = (len(self.windows) % 10) * 30` computed before insertion,
insert it into the registry, and append its id to `z_order`.  Returns
the new id with the new state. -/
def create_window (s : WMState) (program_name icon : String)
    (hint : Option (Int × Int)) : WindowId × WMState :=
  let counter := s.window_counter + 1
  let id : WindowId := ⟨program_name, counter⟩
  let sz := sizeFor hint
  let offset : Int := (((s.windows.length % 10) : Nat) : Int) * 30
  let win : PW :=
    { is_minimized := false
      is_maximized := false
      normal_geometry := none
      geometry := { x := 100 + offset, y := 80 + offset, w := sz.1, h := sz.2 }
      visible := true }
  let entry : WinEntry := { win := win, program_name := program_name, icon := icon }
  (id,
   { windows := s.windows ++ [(id, entry)]
     window_counter := counter
     z_order := s.z_order ++ [id] })

/-- Python `WindowManager.close_window` (lines 296-305): when the id is a
registry key, delete that dict entry and, when the id is in `z_order`,
remove its (first) occurrence; unknown ids fall through with no
effect. -/
def close_window (s : WMState) (id : WindowId) : WMState :=
  if id ∈ regIds s then
    { s with
      windows := s.windows.eraseP (fun e => e.1 == id)
      z_order := if id ∈ s.z_order then s.z_order.erase id else s.z_order }
  else s

/-- Python `WindowManager.bring_to_front` (lines 311-320): when the id is both a
registry key and in `z_order`, move it to the end of `z_order` (the
re-`raise_` loop only repaints and touches no manager state). -/
def bring_to_front (s : WMState) (id : WindowId) : WMState :=
  if id ∈ regIds s ∧ id ∈ s.z_order then
    { s with z_order := s.z_order.erase id ++ [id] }
  else s

/-- Manager-level view of invoking `minimize` on the window registered
under `id` (the `minimized` signal handler is a no-op).  On an id with no
registered window there is no object to mutate, so the state is
unchanged. -/
def minimizeW (s : WMState) (id : WindowId) : WMState :=
  updateWin s id pwMinimize

/-- Manager-level view of invoking `restore` on the window registered
under `id`: the local update followed by the `focused` signal, which is
connected to `bring_to_front` (line 278). -/
def restoreW (s : WMState) (id : WindowId) : WMState :=
  bring_to_front (updateWin s id pwRestoreLocal) id

/-- Manager-level view of invoking `toggle_maximize` on the window
registered under `id`. -/
def toggle_maximizeW (s : WMState) (dw dh : Int) (id : WindowId) : WMState :=
  updateWin s id (pwToggleMaximize dw dh)

/-- Python `WindowManager.get_windows_for_program` (lines 322-325): the keys
whose entry's `program_name` matches, in dict (= insertion = creation)
order. -/
def get_windows_for_program (s : WMState) (program_name : String) : List WindowId :=
  (s.windows.filter (fun e => e.2.program_name == program_name)).map Prod.fst

/-- Python `WindowManager.get_running_programs` (lines 327-329): the set of
`program_name` values of the registered windows. -/
def get_running_programs (s : WMState) : Finset String :=
  (s.windows.map (fun e => e.2.program_name)).toFinset

/-- Python `WindowManager.focus_or_restore_program` (lines 331-344): on the
first id returned by `get_windows_for_program` — if any — restore when
`is_minimized`, otherwise minimize when `isVisible()`, otherwise restore.
The inner lookup `self.windows[window_id]` cannot fail because the id was
just drawn from the same dict; the `none` branch only totalises it. -/
def focus_or_restore_program (s : WMState) (program_name : String) : WMState :=
  match get_windows_for_program s program_name with
  | [] => s
  | window_id :: _ =>
    match lookupWin s window_id with
    | none => s
    | some entry =>
      if entry.win.is_minimized then restoreW s window_id
      else if entry.win.visible then minimizeW s window_id
      else restoreW s window_id

/-- States reachable from the fresh manager by the lifecycle
operations. -/
inductive Reachable : WMState → Prop where
  | init : Reachable wmInit
  | create (s : WMState) (p i : String) (hint : Option (Int × Int)) :
      Reachable s → Reachable (create_window s p i hint).2
  | close (s : WMState) (id : WindowId) :
      Reachable s → Reachable (close_window s id)
  | front (s : WMState) (id : WindowId) :
      Reachable s → Reachable (bring_to_front s id)
  | minimized (s : WMState) (id : WindowId) :
      Reachable s → Reachable (minimizeW s id)
  | restored (s : WMState) (id : WindowId) :
      Reachable s → Reachable (restoreW s id)
  | toggled (s : WMState) (dw dh : Int) (id : WindowId) :
      Reachable s → Reachable (toggle_maximizeW s dw dh id)
  | focused (s : WMState) (p : String) :
      Reachable s → Reachable (focus_or_restore_program s p)

/-! Concrete states used to instantiate the theorems below. -/

def aId : WindowId := ⟨"A", 1⟩

def bId : WindowId := ⟨"B", 2⟩

/-- The manager after launching one "A" window on the fresh shell. -/
def wmA : WMState := (create_window wmInit "A" "ic" none).2

/-- State `wmA` after also launching a "B" window (so "B" is topmost). -/
def wmAB : WMState := (create_window wmA "B" "ic" none).2

/-- State `wmA` after maximizing the "A" window on a 1000 x 800 desktop. -/
def wmAMax : WMState := toggle_maximizeW wmA 1000 800 aId

/-- State `wmAMax` after then minimizing the "A" window. -/
def wmAMaxMin : WMState := minimizeW wmAMax aId

/-- The window object of `wmA`'s single window. -/
def pwA : PW :=
  { is_minimized := false, is_maximized := false, normal_geometry := none
    geometry := { x := 100, y := 80, w := 900, h := 650 }, visible := true }

/-- Window `pwA` maximized on a 1000 x 800 desktop. -/
def pwAMax : PW := pwToggleMaximize 1000 800 pwA

/-- The registry entry of `wmA`'s single window. -/
def entryA : WinEntry := { win := pwA, program_name := "A", icon := "ic" }

/-- The consistency invariant maintained by the lifecycle operations:
window counters are bounded by `window_counter` (so fresh ids are new),
the registry is listed in strictly increasing creation order (so keys are
distinct), `z_order` is a permutation of the registry's keys, a window is
shown exactly when it is not minimized, and a maximized window always has
a saved `normal_geometry`. -/
structure WMInv (s : WMState) : Prop where
  ctr_le : ∀ e ∈ s.windows, e.1.ctr ≤ s.window_counter
  ctr_pairwise : s.windows.Pairwise (fun a b => a.1.ctr < b.1.ctr)
  perm : s.z_order.Perm (regIds s)
  vis : ∀ e ∈ s.windows, e.2.win.visible = !e.2.win.is_minimized
  maxsome : ∀ e ∈ s.windows, e.2.win.is_maximized = true →
    e.2.win.normal_geometry.isSome = true

lemma updEntry_fst (id : WindowId) (f : PW → PW) (e : WindowId × WinEntry) :
    (updEntry id f e).1 = e.1 := by
  unfold updEntry; split <;> rfl

lemma regIds_updateWin (s : WMState) (id : WindowId) (f : PW → PW) :
    regIds (updateWin s id f) = regIds s := by
  simp only [regIds, updateWin, List.map_map]
  exact List.map_congr_left fun e _ => updEntry_fst id f e

lemma z_order_updateWin (s : WMState) (id : WindowId) (f : PW → PW) :
    (updateWin s id f).z_order = s.z_order := rfl

lemma find?_snd_map_updEntry (l : List (WindowId × WinEntry)) (id : WindowId)
    (f : PW → PW) :
    ((l.map (updEntry id f)).find? (fun e => e.1 == id)).map Prod.snd
      = ((l.find? (fun e => e.1 == id)).map Prod.snd).map
          (fun e => { e with win := f e.win }) := by
  induction l with
  | nil => rfl
  | cons a l ih =>
    by_cases h : a.1 = id
    · rw [List.map_cons, List.find?_cons_of_pos _ (by simp [updEntry_fst, h]),
        List.find?_cons_of_pos _ (by simp [h])]
      simp [updEntry, h]
    · rw [List.map_cons, List.find?_cons_of_neg _ (by simp [updEntry_fst, h]),
        List.find?_cons_of_neg _ (by simp [h])]
      exact ih

lemma lookupWin_updateWin_self (s : WMState) (id : WindowId) (f : PW → PW) :
    lookupWin (updateWin s id f) id
      = (lookupWin s id).map (fun e => { e with win := f e.win }) := by
  simp only [lookupWin, updateWin]
  exact find?_snd_map_updEntry s.windows id f

lemma lookupWin_mem {s : WMState} {id : WindowId} {e : WinEntry}
    (h : lookupWin s id = some e) : (id, e) ∈ s.windows := by
  unfold lookupWin at h
  cases hf : s.windows.find? (fun x => x.1 == id) with
  | none => rw [hf] at h; exact absurd h (by simp)
  | some x =>
    rw [hf] at h
    have hx1 : x.1 = id := by simpa using List.find?_some hf
    have hx2 : x.2 = e := by simpa using h
    have := List.mem_of_find?_eq_some hf
    rwa [show x = (id, e) by rw [← hx1, ← hx2]] at this

lemma mem_regIds_of_lookup {s : WMState} {id : WindowId} {e : WinEntry}
    (h : lookupWin s id = some e) : id ∈ regIds s :=
  List.mem_map.2 ⟨(id, e), lookupWin_mem h, rfl⟩

lemma bring_to_front_windows (s : WMState) (id : WindowId) :
    (bring_to_front s id).windows = s.windows := by
  unfold bring_to_front; split <;> rfl

lemma lookupWin_bring_to_front (s : WMState) (id id' : WindowId) :
    lookupWin (bring_to_front s id) id' = lookupWin s id' := by
  unfold lookupWin; rw [bring_to_front_windows]

lemma bring_to_front_z_order {s : WMState} {id : WindowId}
    (h1 : id ∈ regIds s) (h2 : id ∈ s.z_order) :
    (bring_to_front s id).z_order = s.z_order.erase id ++ [id] := by
  unfold bring_to_front; rw [if_pos ⟨h1, h2⟩]

lemma map_fst_eraseP (l : List (WindowId × WinEntry)) (id : WindowId) :
    (l.eraseP (fun e => e.1 == id)).map Prod.fst = (l.map Prod.fst).erase id := by
  induction l with
  | nil => rfl
  | cons a l ih =>
    by_cases h : a.1 = id
    · rw [List.eraseP_cons, List.map_cons, List.erase_cons]
      simp [h]
    · rw [List.eraseP_cons, List.map_cons, List.erase_cons]
      simp only [h, if_false, beq_iff_eq, cond_eq_if, if_neg h]
      rw [List.map_cons, ih]

lemma find?_windows_eq_none_of_fresh {s : WMState} {id : WindowId}
    (h : ∀ e ∈ s.windows, e.1.ctr < id.ctr) :
    s.windows.find? (fun e => e.1 == id) = none := by
  rw [List.find?_eq_none]
  intro x hx
  simp only [beq_iff_eq]
  intro hxe
  exact absurd (hxe ▸ h x hx) (lt_irrefl _)

lemma nodup_regIds_of_pairwise {s : WMState}
    (h : s.windows.Pairwise (fun a b => a.1.ctr < b.1.ctr)) :
    (regIds s).Nodup := by
  unfold regIds
  rw [List.Nodup, List.pairwise_map]
  exact h.imp fun hab heq => absurd (heq ▸ hab) (lt_irrefl _)

lemma WMInv.regNodup {s : WMState} (hs : WMInv s) : (regIds s).Nodup :=
  nodup_regIds_of_pairwise hs.ctr_pairwise

lemma WMInv.zNodup {s : WMState} (hs : WMInv s) : s.z_order.Nodup :=
  hs.perm.nodup_iff.2 hs.regNodup

lemma WMInv.mem_z_iff {s : WMState} (hs : WMInv s) (id : WindowId) :
    id ∈ s.z_order ↔ id ∈ regIds s :=
  hs.perm.mem_iff

lemma wmInv_init : WMInv wmInit := by
  constructor <;> simp [wmInit, regIds]

lemma wmInv_create {s : WMState} (hs : WMInv s) (p i : String)
    (hint : Option (Int × Int)) : WMInv (create_window s p i hint).2 := by
  unfold create_window
  constructor
  · intro e he
    rcases List.mem_append.1 he with h | h
    · exact le_trans (hs.ctr_le e h) (Nat.le_succ _)
    · simp only [List.mem_singleton] at h
      subst h; exact le_refl _
  · rw [List.pairwise_append]
    refine ⟨hs.ctr_pairwise, List.pairwise_singleton _ _, ?_⟩
    intro a ha b hb
    simp only [List.mem_singleton] at hb
    subst hb
    exact Nat.lt_succ_of_le (hs.ctr_le a ha)
  · simp only [regIds, List.map_append, List.map_cons, List.map_nil]
    exact hs.perm.append_right _
  · intro e he
    rcases List.mem_append.1 he with h | h
    · exact hs.vis e h
    · simp only [List.mem_singleton] at h
      subst h; rfl
  · intro e he
    rcases List.mem_append.1 he with h | h
    · exact hs.maxsome e h
    · simp only [List.mem_singleton] at h
      subst h; simp

lemma wmInv_close {s : WMState} (hs : WMInv s) (id : WindowId) :
    WMInv (close_window s id) := by
  unfold close_window
  split
  · next hmem =>
    have hz : id ∈ s.z_order := (hs.mem_z_iff id).2 hmem
    constructor
    · intro e he
      exact hs.ctr_le e ((List.eraseP_sublist s.windows).mem he)
    · exact hs.ctr_pairwise.sublist (List.eraseP_sublist s.windows)
    · simp only [regIds, map_fst_eraseP, if_pos hz]
      exact hs.perm.erase id
    · intro e he
      exact hs.vis e ((List.eraseP_sublist s.windows).mem he)
    · intro e he
      exact hs.maxsome e ((List.eraseP_sublist s.windows).mem he)
  · exact hs

lemma wmInv_front {s : WMState} (hs : WMInv s) (id : WindowId) :
    WMInv (bring_to_front s id) := by
  unfold bring_to_front
  split
  · next hmem =>
    refine ⟨hs.ctr_le, hs.ctr_pairwise, ?_, hs.vis, hs.maxsome⟩
    show (s.z_order.erase id ++ [id]).Perm (regIds s)
    exact ((List.perm_append_singleton _ _).trans
      (List.perm_cons_erase hmem.2).symm).trans hs.perm
  · exact hs

lemma wmInv_updateWin {s : WMState} (hs : WMInv s) (id : WindowId) (f : PW → PW)
    (hfvis : ∀ w : PW, w.visible = !w.is_minimized →
      (f w).visible = !(f w).is_minimized)
    (hfmax : ∀ w : PW, (w.is_maximized = true → w.normal_geometry.isSome = true) →
      (f w).is_maximized = true → (f w).normal_geometry.isSome = true) :
    WMInv (updateWin s id f) := by
  have hreg : regIds (updateWin s id f) = regIds s := regIds_updateWin s id f
  constructor
  · intro e he
    rcases List.mem_map.1 he with ⟨x, hx, hxe⟩
    have : e.1 = x.1 := by rw [← hxe]; exact updEntry_fst id f x
    rw [this]
    exact hs.ctr_le x hx
  · show (s.windows.map (updEntry id f)).Pairwise _
    rw [List.pairwise_map]
    exact hs.ctr_pairwise.imp fun {a b} hab => by
      rw [updEntry_fst, updEntry_fst]; exact hab
  · show s.z_order.Perm (regIds (updateWin s id f))
    rw [hreg]; exact hs.perm
  · intro e he
    rcases List.mem_map.1 he with ⟨x, hx, hxe⟩
    subst hxe
    unfold updEntry
    split
    · exact hfvis x.2.win (hs.vis x hx)
    · exact hs.vis x hx
  · intro e he
    rcases List.mem_map.1 he with ⟨x, hx, hxe⟩
    subst hxe
    unfold updEntry
    split
    · exact hfmax x.2.win (hs.maxsome x hx)
    · exact hs.maxsome x hx

lemma wmInv_minimize {s : WMState} (hs : WMInv s) (id : WindowId) :
    WMInv (minimizeW s id) :=
  wmInv_updateWin hs id pwMinimize (fun _ _ => rfl)
    (fun _ h hm => h hm)

lemma wmInv_restore {s : WMState} (hs : WMInv s) (id : WindowId) :
    WMInv (restoreW s id) :=
  wmInv_front
    (wmInv_updateWin hs id pwRestoreLocal (fun _ _ => rfl) (fun _ h hm => h hm)) id

lemma wmInv_toggle {s : WMState} (hs : WMInv s) (dw dh : Int) (id : WindowId) :
    WMInv (toggle_maximizeW s dw dh id) := by
  refine wmInv_updateWin hs id (pwToggleMaximize dw dh) (fun w hw => ?_) (fun w h hm => ?_)
  · by_cases hwm : w.is_maximized <;> simp [pwToggleMaximize, hwm] <;> exact hw
  · by_cases hwm : w.is_maximized
    · simp [pwToggleMaximize, hwm] at hm
    · simp [pwToggleMaximize, hwm]

lemma wmInv_focus {s : WMState} (hs : WMInv s) (p : String) :
    WMInv (focus_or_restore_program s p) := by
  cases hw : get_windows_for_program s p with
  | nil => simp only [focus_or_restore_program, hw]; exact hs
  | cons w ws =>
    cases hl : lookupWin s w with
    | none => simp only [focus_or_restore_program, hw, hl]; exact hs
    | some entry =>
      simp only [focus_or_restore_program, hw, hl]
      split
      · exact wmInv_restore hs w
      · split
        · exact wmInv_minimize hs w
        · exact wmInv_restore hs w

/-- Every reachable manager state satisfies the consistency invariant. -/
theorem reachable_wmInv {s : WMState} (h : Reachable s) : WMInv s := by
  induction h with
  | init => exact wmInv_init
  | create s p i hint _ ih => exact wmInv_create ih p i hint
  | close s id _ ih => exact wmInv_close ih id
  | front s id _ ih => exact wmInv_front ih id
  | minimized s id _ ih => exact wmInv_minimize ih id
  | restored s id _ ih => exact wmInv_restore ih id
  | toggled s dw dh id _ ih => exact wmInv_toggle ih dw dh id
  | focused s p _ ih => exact wmInv_focus ih p

/-- Claim C5, counterexample: the claim says `toggle_maximize` from
`Maximized` clears `saved_geometry` (leaving it unset); on the concrete
maximized window `pwAMax` the code leaves `normal_geometry` set. -/
theorem toggle_maximize_keeps_saved_geometry :
    pwAMax.is_maximized = true ∧
    (pwToggleMaximize 1000 800 pwAMax).normal_geometry ≠ none := by
  constructor <;> decide

/-- Claim C5, amended: for every window in the Maximized state (whose
`normal_geometry` is recorded), `toggle_maximize` restores `geometry`
from `normal_geometry` and sets the state back to Normal, but leaves
`normal_geometry` set to its previous value rather than clearing it. -/
theorem toggle_maximize_from_maximized (w : PW) (dw dh : Int) (g : Rect)
    (hmax : w.is_maximized = true) (hg : w.normal_geometry = some g) :
    pwToggleMaximize dw dh w = { w with geometry := g, is_maximized := false } := by
  simp [pwToggleMaximize, hmax, hg]

/-- Witness for `toggle_maximize_from_maximized` at the concrete
maximized window `pwAMax`. -/
theorem toggle_maximize_from_maximized_witness :
    pwAMax.is_maximized = true ∧ pwAMax.normal_geometry = some pwA.geometry ∧
    pwToggleMaximize 1000 800 pwAMax
      = { pwAMax with geometry := pwA.geometry, is_maximized := false } :=
  ⟨by decide, by decide,
    toggle_maximize_from_maximized pwAMax 1000 800 pwA.geometry (by decide) (by decide)⟩

/-- Claim C6, confirmed: from the Normal state (not minimized, not
maximized) with geometry `g`, toggling maximize twice on the same desktop
returns the window to Normal with geometry exactly `g`. -/
theorem toggle_maximize_round_trip (w : PW) (dw dh : Int)
    (hmin : w.is_minimized = false) (hmax : w.is_maximized = false) :
    (pwToggleMaximize dw dh (pwToggleMaximize dw dh w)).geometry = w.geometry ∧
    (pwToggleMaximize dw dh (pwToggleMaximize dw dh w)).is_minimized = false ∧
    (pwToggleMaximize dw dh (pwToggleMaximize dw dh w)).is_maximized = false := by
  simp [pwToggleMaximize, hmax, hmin]

/-- Witness for `toggle_maximize_round_trip` at the concrete Normal
window `pwA`. -/
theorem toggle_maximize_round_trip_witness :
    pwA.is_minimized = false ∧ pwA.is_maximized = false ∧
    ((pwToggleMaximize 1000 800 (pwToggleMaximize 1000 800 pwA)).geometry = pwA.geometry ∧
     (pwToggleMaximize 1000 800 (pwToggleMaximize 1000 800 pwA)).is_minimized = false ∧
     (pwToggleMaximize 1000 800 (pwToggleMaximize 1000 800 pwA)).is_maximized = false) :=
  ⟨by decide, by decide, toggle_maximize_round_trip pwA 1000 800 (by decide) (by decide)⟩

/-- Claim C4, counterexample: the claim says no reachable window is ever
simultaneously Minimized and Maximized; the reachable state `wmAMaxMin`
(create "A", maximize it, minimize it) holds a window with
`is_minimized = true` and `is_maximized = true` at once. -/
theorem window_both_minimized_and_maximized :
    Reachable wmAMaxMin ∧
    (lookupWin wmAMaxMin aId).map (fun e => (e.win.is_minimized, e.win.is_maximized))
      = some (true, true) := by
  constructor
  · exact Reachable.minimized _ aId (Reachable.toggled _ 1000 800 aId
      (Reachable.create _ "A" "ic" none Reachable.init))
  · decide

/-- Claim C4, amended: the state is a pair of independent booleans, and
`minimize` preserves `is_maximized`; so minimizing any registered window
that is Maximized yields a window that is simultaneously Minimized and
Maximized (the spec's mutual-exclusion invariant fails on the code). -/
theorem minimize_on_maximized_sets_both_flags (s : WMState) (id : WindowId)
    (e : WinEntry) (hl : lookupWin s id = some e)
    (hmax : e.win.is_maximized = true) :
    (lookupWin (minimizeW s id) id).map
        (fun x => (x.win.is_minimized, x.win.is_maximized))
      = some (true, true) := by
  rw [minimizeW, lookupWin_updateWin_self, hl]
  simp [pwMinimize, hmax]

/-- Witness for `minimize_on_maximized_sets_both_flags` at the concrete
maximized state `wmAMax`. -/
theorem minimize_on_maximized_sets_both_flags_witness :
    lookupWin wmAMax aId = some { win := pwAMax, program_name := "A", icon := "ic" } ∧
    pwAMax.is_maximized = true ∧
    (lookupWin (minimizeW wmAMax aId) aId).map
        (fun x => (x.win.is_minimized, x.win.is_maximized))
      = some (true, true) :=
  ⟨by decide, by decide,
    minimize_on_maximized_sets_both_flags wmAMax aId
      { win := pwAMax, program_name := "A", icon := "ic" } (by decide) (by decide)⟩

/-- Claim C2, confirmed: in every state reachable by the lifecycle
operations, the Z-order stack is a permutation of the registry: every id
in `z_order` is a registry key, and every registry key occurs in
`z_order` exactly once. -/
theorem z_order_perm_registry (s : WMState) (h : Reachable s) :
    (∀ id ∈ s.z_order, id ∈ regIds s) ∧
    (∀ id ∈ regIds s, s.z_order.count id = 1) := by
  have hs := reachable_wmInv h
  refine ⟨fun id hid => (hs.mem_z_iff id).1 hid, fun id hid => ?_⟩
  rw [hs.perm.count_eq]
  exact List.count_eq_one_of_mem hs.regNodup hid

/-- Witness for `z_order_perm_registry` at the reachable two-window
state `wmAB`. -/
theorem z_order_perm_registry_witness :
    Reachable wmAB ∧
    ((∀ id ∈ wmAB.z_order, id ∈ regIds wmAB) ∧
     (∀ id ∈ regIds wmAB, wmAB.z_order.count id = 1)) := by
  have hR : Reachable wmAB :=
    Reachable.create _ "B" "ic" none (Reachable.create _ "A" "ic" none Reachable.init)
  exact ⟨hR, z_order_perm_registry wmAB hR⟩

/-- Claim C3, confirmed: `close_window` on a registered id removes it
from the registry and from the Z-order stack in the one atomic state
transition, and `close_window` on an unregistered id returns the state
unchanged (a total no-op, never an exception). -/
theorem close_window_removes_or_noop (s : WMState) (h : Reachable s) (id : WindowId) :
    (id ∈ regIds s →
      id ∉ regIds (close_window s id) ∧ id ∉ (close_window s id).z_order) ∧
    (id ∉ regIds s → close_window s id = s) := by
  have hs := reachable_wmInv h
  constructor
  · intro hmem
    have hz : id ∈ s.z_order := (hs.mem_z_iff id).2 hmem
    unfold close_window
    rw [if_pos hmem]
    constructor
    · show id ∉ (s.windows.eraseP (fun e => e.1 == id)).map Prod.fst
      rw [map_fst_eraseP]
      intro hcontra
      exact ((List.Nodup.mem_erase_iff hs.regNodup).1 hcontra).1 rfl
    · show id ∉ (if id ∈ s.z_order then s.z_order.erase id else s.z_order)
      rw [if_pos hz]
      intro hcontra
      exact ((List.Nodup.mem_erase_iff hs.zNodup).1 hcontra).1 rfl
  · intro hmem
    unfold close_window
    rw [if_neg hmem]

/-- Witness for `close_window_removes_or_noop` at the reachable state
`wmAB` and the registered id `aId`. -/
theorem close_window_removes_or_noop_witness :
    Reachable wmAB ∧
    ((aId ∈ regIds wmAB →
      aId ∉ regIds (close_window wmAB aId) ∧ aId ∉ (close_window wmAB aId).z_order) ∧
     (aId ∉ regIds wmAB → close_window wmAB aId = wmAB)) := by
  have hR : Reachable wmAB :=
    Reachable.create _ "B" "ic" none (Reachable.create _ "A" "ic" none Reachable.init)
  exact ⟨hR, close_window_removes_or_noop wmAB hR aId⟩

lemma lookupWin_create {s : WMState} (hs : WMInv s) (p i : String)
    (hint : Option (Int × Int)) :
    lookupWin (create_window s p i hint).2 (create_window s p i hint).1
      = some
          { win :=
              { is_minimized := false, is_maximized := false, normal_geometry := none
                geometry :=
                  { x := 100 + (((s.windows.length % 10) : Nat) : Int) * 30
                    y := 80 + (((s.windows.length % 10) : Nat) : Int) * 30
                    w := (sizeFor hint).1, h := (sizeFor hint).2 }
                visible := true }
            program_name := p, icon := i } := by
  have hfresh : s.windows.find?
      (fun e => e.1 == (create_window s p i hint).1) = none :=
    find?_windows_eq_none_of_fresh fun e he => Nat.lt_succ_of_le (hs.ctr_le e he)
  show (((s.windows ++ [_]).find? _).map Prod.snd) = _
  rw [List.find?_append, hfresh, Option.none_or,
    List.find?_cons_of_pos _ (by rw [beq_iff_eq]; rfl)]
  rfl

/-- Claim C8, confirmed: `create_window` always succeeds; the new window
is registered under the returned id at cascade position
`(100 + (n mod 10) * 30, 80 + (n mod 10) * 30)` for `n` the number of
windows open before the call, its size is at least 800 x 600 and at least
the content's preferred size plus chrome margins, it starts in the Normal
state (neither minimized nor maximized), and the returned id is a
registry key and the tail (topmost) element of `z_order`. -/
theorem create_window_spec (s : WMState) (h : Reachable s) (p i : String)
    (hint : Option (Int × Int)) :
    ∃ e, lookupWin (create_window s p i hint).2 (create_window s p i hint).1 = some e ∧
      e.win.geometry.x = 100 + (((s.windows.length % 10) : Nat) : Int) * 30 ∧
      e.win.geometry.y = 80 + (((s.windows.length % 10) : Nat) : Int) * 30 ∧
      800 ≤ e.win.geometry.w ∧ 600 ≤ e.win.geometry.h ∧
      (∀ wh : Int × Int, hint = some wh →
        wh.1 + 50 ≤ e.win.geometry.w ∧ wh.2 + 90 ≤ e.win.geometry.h) ∧
      e.win.is_minimized = false ∧ e.win.is_maximized = false ∧
      e.program_name = p ∧
      (create_window s p i hint).1 ∈ regIds (create_window s p i hint).2 ∧
      (create_window s p i hint).2.z_order.getLast? = some (create_window s p i hint).1 := by
  have hs := reachable_wmInv h
  refine ⟨_, lookupWin_create hs p i hint, rfl, rfl, ?_, ?_, ?_, rfl, rfl, rfl, ?_, ?_⟩
  · show (800 : Int) ≤ (sizeFor hint).1
    cases hint with
    | none => norm_num [sizeFor]
    | some wh => exact le_max_left _ _
  · show (600 : Int) ≤ (sizeFor hint).2
    cases hint with
    | none => norm_num [sizeFor]
    | some wh => exact le_max_left _ _
  · intro wh hwh
    subst hwh
    exact ⟨le_max_right _ _, le_max_right _ _⟩
  · simp [create_window, regIds]
  · exact List.getLast?_concat _

/-- Witness for `create_window_spec` on the reachable state `wmA` with a
content size hint. -/
theorem create_window_spec_witness :
    Reachable wmA ∧
    (∃ e, lookupWin (create_window wmA "B" "ic" (some (1000, 700))).2
            (create_window wmA "B" "ic" (some (1000, 700))).1 = some e ∧
      e.win.geometry.x = 100 + (((wmA.windows.length % 10) : Nat) : Int) * 30 ∧
      e.win.geometry.y = 80 + (((wmA.windows.length % 10) : Nat) : Int) * 30 ∧
      800 ≤ e.win.geometry.w ∧ 600 ≤ e.win.geometry.h ∧
      (∀ wh : Int × Int, (some ((1000 : Int), (700 : Int))) = some wh →
        wh.1 + 50 ≤ e.win.geometry.w ∧ wh.2 + 90 ≤ e.win.geometry.h) ∧
      e.win.is_minimized = false ∧ e.win.is_maximized = false ∧
      e.program_name = "B" ∧
      (create_window wmA "B" "ic" (some (1000, 700))).1
        ∈ regIds (create_window wmA "B" "ic" (some (1000, 700))).2 ∧
      (create_window wmA "B" "ic" (some (1000, 700))).2.z_order.getLast?
        = some (create_window wmA "B" "ic" (some (1000, 700))).1) := by
  have hR : Reachable wmA := Reachable.create _ "A" "ic" none Reachable.init
  exact ⟨hR, create_window_spec wmA hR "B" "ic" (some (1000, 700))⟩

/-- Claim C9, confirmed: `get_windows_for_program` returns exactly the
registered ids whose entry's `program_name` matches (so the empty list,
not an error, for an unknown program), listed in creation order (their
creation counters are strictly increasing along the list); and
`get_running_programs` is exactly the set of `program_name` values of the
registered windows. -/
theorem program_queries_spec (s : WMState) (h : Reachable s) (p : String) :
    (∀ id, id ∈ get_windows_for_program s p ↔
      ∃ e, (id, e) ∈ s.windows ∧ e.program_name = p) ∧
    ((get_windows_for_program s p).map WindowId.ctr).Pairwise (· < ·) ∧
    (∀ q, q ∈ get_running_programs s ↔ ∃ x ∈ s.windows, x.2.program_name = q) := by
  have hs := reachable_wmInv h
  refine ⟨fun id => ?_, ?_, fun q => ?_⟩
  · simp only [get_windows_for_program, List.mem_map, List.mem_filter, beq_iff_eq]
    constructor
    · rintro ⟨x, ⟨hx, hpx⟩, rfl⟩
      exact ⟨x.2, hx, hpx⟩
    · rintro ⟨e, he, hpe⟩
      exact ⟨(id, e), ⟨he, hpe⟩, rfl⟩
  · show (((s.windows.filter _).map Prod.fst).map WindowId.ctr).Pairwise (· < ·)
    rw [List.pairwise_map, List.pairwise_map]
    exact hs.ctr_pairwise.sublist (List.filter_sublist s.windows)
  · simp [get_running_programs]

/-- Witness for `program_queries_spec` at the reachable state `wmAB`
and program "A". -/
theorem program_queries_spec_witness :
    Reachable wmAB ∧
    ((∀ id, id ∈ get_windows_for_program wmAB "A" ↔
      ∃ e, (id, e) ∈ wmAB.windows ∧ e.program_name = "A") ∧
    ((get_windows_for_program wmAB "A").map WindowId.ctr).Pairwise (· < ·) ∧
    (∀ q, q ∈ get_running_programs wmAB ↔ ∃ x ∈ wmAB.windows, x.2.program_name = q)) := by
  have hR : Reachable wmAB :=
    Reachable.create _ "B" "ic" none (Reachable.create _ "A" "ic" none Reachable.init)
  exact ⟨hR, program_queries_spec wmAB hR "A"⟩

lemma regIds_bring_to_front (s : WMState) (id : WindowId) :
    regIds (bring_to_front s id) = regIds s := by
  unfold regIds; rw [bring_to_front_windows]

/-- Claim C7, confirmed: for a registered window that is not minimized
(state Normal or Maximized), `minimize` immediately followed by `restore`
returns the window to its prior state — `is_maximized` is preserved, so
Maximized stays Maximized and Normal stays Normal — and the restore moves
the window's id to the tail (top) of the Z-order stack. -/
theorem minimize_then_restore (s : WMState) (id : WindowId) (e : WinEntry)
    (h : Reachable s) (hl : lookupWin s id = some e)
    ( _hmin : e.win.is_minimized = false) :
    ∃ e', lookupWin (restoreW (minimizeW s id) id) id = some e' ∧
      e'.win.is_minimized = false ∧
      e'.win.is_maximized = e.win.is_maximized ∧
      e'.win.geometry = e.win.geometry ∧
      (restoreW (minimizeW s id) id).z_order.getLast? = some id := by
  have hs := reachable_wmInv h
  have h1 : lookupWin (minimizeW s id) id = some { e with win := pwMinimize e.win } := by
    rw [minimizeW, lookupWin_updateWin_self, hl]; rfl
  have h2 : lookupWin (updateWin (minimizeW s id) id pwRestoreLocal) id
      = some { e with win := pwRestoreLocal (pwMinimize e.win) } := by
    rw [lookupWin_updateWin_self, h1]; rfl
  have hmem2 : id ∈ regIds (updateWin (minimizeW s id) id pwRestoreLocal) :=
    mem_regIds_of_lookup h2
  have hz2 : id ∈ (updateWin (minimizeW s id) id pwRestoreLocal).z_order := by
    show id ∈ s.z_order
    exact (hs.mem_z_iff id).2 (mem_regIds_of_lookup hl)
  refine ⟨{ e with win := pwRestoreLocal (pwMinimize e.win) }, ?_, rfl, rfl, rfl, ?_⟩
  · rw [restoreW, lookupWin_bring_to_front]; exact h2
  · rw [restoreW, bring_to_front_z_order hmem2 hz2]
    exact List.getLast?_concat _

/-- Witness for `minimize_then_restore` at the reachable state `wmA`
with its single, Normal window. -/
theorem minimize_then_restore_witness :
    Reachable wmA ∧ lookupWin wmA aId = some entryA ∧
    entryA.win.is_minimized = false ∧
    (∃ e', lookupWin (restoreW (minimizeW wmA aId) aId) aId = some e' ∧
      e'.win.is_minimized = false ∧
      e'.win.is_maximized = entryA.win.is_maximized ∧
      e'.win.geometry = entryA.win.geometry ∧
      (restoreW (minimizeW wmA aId) aId).z_order.getLast? = some aId) := by
  have hR : Reachable wmA := Reachable.create _ "A" "ic" none Reachable.init
  exact ⟨hR, by decide, by decide,
    minimize_then_restore wmA aId entryA hR (by decide) (by decide)⟩

/-- Claim C10, confirmed: `restore` on a registered window that is not
minimized runs without any guard or error: the minimized flag stays
false, the window becomes (stays) shown, its geometry, maximize flag,
saved geometry and registry entry strings are unchanged, the registry
keys are unchanged, and — through the `focused` signal wired to
`bring_to_front` — its id moves to the tail of the Z-order stack: a
harmless refocus. -/
theorem restore_on_unminimized (s : WMState) (id : WindowId) (e : WinEntry)
    (h : Reachable s) (hl : lookupWin s id = some e)
    ( _hmin : e.win.is_minimized = false) :
    ∃ e', lookupWin (restoreW s id) id = some e' ∧
      e'.win.is_minimized = false ∧ e'.win.visible = true ∧
      e'.win.geometry = e.win.geometry ∧
      e'.win.is_maximized = e.win.is_maximized ∧
      e'.win.normal_geometry = e.win.normal_geometry ∧
      e'.program_name = e.program_name ∧ e'.icon = e.icon ∧
      regIds (restoreW s id) = regIds s ∧
      (restoreW s id).z_order.getLast? = some id := by
  have hs := reachable_wmInv h
  have h2 : lookupWin (updateWin s id pwRestoreLocal) id
      = some { e with win := pwRestoreLocal e.win } := by
    rw [lookupWin_updateWin_self, hl]; rfl
  have hmem2 : id ∈ regIds (updateWin s id pwRestoreLocal) :=
    mem_regIds_of_lookup h2
  have hz2 : id ∈ (updateWin s id pwRestoreLocal).z_order := by
    show id ∈ s.z_order
    exact (hs.mem_z_iff id).2 (mem_regIds_of_lookup hl)
  refine ⟨{ e with win := pwRestoreLocal e.win }, ?_, rfl, rfl, rfl, rfl, rfl, rfl, rfl,
    ?_, ?_⟩
  · rw [restoreW, lookupWin_bring_to_front]; exact h2
  · rw [restoreW, regIds_bring_to_front, regIds_updateWin]
  · rw [restoreW, bring_to_front_z_order hmem2 hz2]
    exact List.getLast?_concat _

/-- Witness for `restore_on_unminimized` at the reachable state `wmA`
with its single non-minimized window. -/
theorem restore_on_unminimized_witness :
    Reachable wmA ∧ lookupWin wmA aId = some entryA ∧
    entryA.win.is_minimized = false ∧
    (∃ e', lookupWin (restoreW wmA aId) aId = some e' ∧
      e'.win.is_minimized = false ∧ e'.win.visible = true ∧
      e'.win.geometry = entryA.win.geometry ∧
      e'.win.is_maximized = entryA.win.is_maximized ∧
      e'.win.normal_geometry = entryA.win.normal_geometry ∧
      e'.program_name = entryA.program_name ∧ e'.icon = entryA.icon ∧
      regIds (restoreW wmA aId) = regIds wmA ∧
      (restoreW wmA aId).z_order.getLast? = some aId) := by
  have hR : Reachable wmA := Reachable.create _ "A" "ic" none Reachable.init
  exact ⟨hR, by decide, by decide,
    restore_on_unminimized wmA aId entryA hR (by decide) (by decide)⟩

/-- Claim C1, counterexample: in the reachable state `wmAB` the first
"A" window `aId` is not minimized and is not the focused/topmost window
(the stack tail is `bId`), so the claim says `focus_or_restore_program
"A"` calls `bring_to_front` on it; the code instead minimizes it, giving
a state different from `bring_to_front wmAB aId` (the source tests
`isVisible()`, not focus). -/
theorem focus_or_restore_minimizes_unfocused_window :
    Reachable wmAB ∧
    get_windows_for_program wmAB "A" = [aId] ∧
    (lookupWin wmAB aId).map (fun e => e.win.is_minimized) = some false ∧
    wmAB.z_order.getLast? = some bId ∧ aId ≠ bId ∧
    focus_or_restore_program wmAB "A" ≠ bring_to_front wmAB aId ∧
    (lookupWin (focus_or_restore_program wmAB "A") aId).map
      (fun e => e.win.is_minimized) = some true := by
  refine ⟨?_, by decide, by decide, by decide, by decide, by decide, by decide⟩
  exact Reachable.create _ "B" "ic" none (Reachable.create _ "A" "ic" none Reachable.init)

/-- Claim C1, amended: for a program with at least one window,
`focus_or_restore_program` acts on the first (earliest-created) window
returned by `get_windows_for_program`: if that window is Minimized it
restores it (it becomes unminimized, shown, and its id moves to the tail
of the Z-order stack); otherwise it minimizes it — whether or not it is
the focused/topmost window — hiding it and leaving the Z-order stack
unchanged (the code branches on `isVisible()`, which for a non-minimized
window of a reachable state is always true, so `bring_to_front` is never
the action taken on a visible non-focused window). -/
theorem focus_or_restore_behavior (s : WMState) (p : String) (id : WindowId)
    (e : WinEntry) (h : Reachable s)
    (hfirst : (get_windows_for_program s p).head? = some id)
    (hl : lookupWin s id = some e) :
    (e.win.is_minimized = true →
      ∃ e', lookupWin (focus_or_restore_program s p) id = some e' ∧
        e'.win.is_minimized = false ∧ e'.win.visible = true ∧
        (focus_or_restore_program s p).z_order.getLast? = some id) ∧
    (e.win.is_minimized = false →
      ∃ e', lookupWin (focus_or_restore_program s p) id = some e' ∧
        e'.win.is_minimized = true ∧ e'.win.visible = false ∧
        (focus_or_restore_program s p).z_order = s.z_order) := by
  have hs := reachable_wmInv h
  have h2 : lookupWin (updateWin s id pwRestoreLocal) id
      = some { e with win := pwRestoreLocal e.win } := by
    rw [lookupWin_updateWin_self, hl]; rfl
  have hmem2 : id ∈ regIds (updateWin s id pwRestoreLocal) :=
    mem_regIds_of_lookup h2
  have hz2 : id ∈ (updateWin s id pwRestoreLocal).z_order := by
    show id ∈ s.z_order
    exact (hs.mem_z_iff id).2 (mem_regIds_of_lookup hl)
  have hrestore :
      (∃ e', lookupWin (restoreW s id) id = some e' ∧
        e'.win.is_minimized = false ∧ e'.win.visible = true ∧
        (restoreW s id).z_order.getLast? = some id) := by
    refine ⟨{ e with win := pwRestoreLocal e.win }, ?_, rfl, rfl, ?_⟩
    · rw [restoreW, lookupWin_bring_to_front]; exact h2
    · rw [restoreW, bring_to_front_z_order hmem2 hz2]
      exact List.getLast?_concat _
  cases hw : get_windows_for_program s p with
  | nil => rw [hw] at hfirst; exact absurd hfirst (by simp)
  | cons w ws =>
    have hwid : w = id := by
      rw [hw] at hfirst
      simpa using hfirst
    rw [hwid] at hw
    constructor
    · intro hminT
      simp only [focus_or_restore_program, hw, hl, hminT, if_true]
      exact hrestore
    · intro hminF
      have hvisible : e.win.visible = true := by
        rw [hs.vis (id, e) (lookupWin_mem hl), hminF]; rfl
      simp only [focus_or_restore_program, hw, hl, hminF, hvisible]
      simp only [Bool.false_eq_true, if_false, if_true]
      refine ⟨{ e with win := pwMinimize e.win }, ?_, rfl, rfl, rfl⟩
      rw [minimizeW, lookupWin_updateWin_self, hl]; rfl

/-- Witness for `focus_or_restore_behavior` at the reachable state
`wmAB`, program "A" and its first window `aId`. -/
theorem focus_or_restore_behavior_witness :
    Reachable wmAB ∧
    (get_windows_for_program wmAB "A").head? = some aId ∧
    lookupWin wmAB aId = some entryA ∧
    ((entryA.win.is_minimized = true →
      ∃ e', lookupWin (focus_or_restore_program wmAB "A") aId = some e' ∧
        e'.win.is_minimized = false ∧ e'.win.visible = true ∧
        (focus_or_restore_program wmAB "A").z_order.getLast? = some aId) ∧
    (entryA.win.is_minimized = false →
      ∃ e', lookupWin (focus_or_restore_program wmAB "A") aId = some e' ∧
        e'.win.is_minimized = true ∧ e'.win.visible = false ∧
        (focus_or_restore_program wmAB "A").z_order = wmAB.z_order)) := by
  have hR : Reachable wmAB :=
    Reachable.create _ "B" "ic" none (Reachable.create _ "A" "ic" none Reachable.init)
  exact ⟨hR, by decide, by decide,
    focus_or_restore_behavior wmAB "A" aId entryA hR (by decide) (by decide)⟩
